import Mathlib

/-!
Verification of the adaptive rate limiter control plane
(`src/limiter/app.py` of `intelligent-rate-limiter`).

Shallow embedding: Python floats are modelled as `ℚ`, Python ints as `ℤ`,
dictionaries as `Option`-valued fields / finite maps, uuid strings as `ℕ`
tokens supplied by the caller, and the wall clock as an explicit `now : ℚ`
parameter (the several `time.time()` reads inside one call are modelled as
a single instant).  Fallible operations return `Option`.  Logging and
Prometheus metric updates are omitted; they do not feed back into the
control state.
-/

namespace RateLimiter

/-- Customer tier (`API_KEYS` values); unknown tenants are rejected at the
HTTP boundary before any limiter state is touched, so only the three real
tiers appear as keys. -/
inductive Tenant
  | free
  | pro
  | ent
deriving DecidableEq, Repr

/-- A per-key policy: `policies[pair] = {"rps": float, "burst": int}`. -/
structure Policy where
  rps : ℚ
  burst : ℤ
deriving DecidableEq, Repr

/-- A per-key token bucket: `buckets[pair] = {"tokens": float, "last": timestamp}`. -/
structure Bucket where
  tokens : ℚ
  last : ℚ
deriving DecidableEq, Repr

/-- A per-key usage window: `stats[pair] = {"ok", "blocked", "since"}`. -/
structure Stats where
  ok : ℚ
  blocked : ℚ
  since : ℚ
deriving DecidableEq, Repr

/-- `PLAN_BASE` table (with the same defaults as the source). -/
def planBase : Tenant → Policy
  | .free => { rps := 3, burst := 10 }
  | .pro  => { rps := 8, burst := 20 }
  | .ent  => { rps := 15, burst := 40 }

/-- Default of `DECISION_MIN_CONF` (0.6). -/
def DECISION_MIN_CONF : ℚ := 3/5

/-- Default of `LARGE_CHANGE_FACTOR` (1.8). -/
def LARGE_CHANGE_FACTOR : ℚ := 9/5

/-- The three per-key dictionaries (`policies`, `buckets`, `stats`)
projected to a single key: each entry is present or absent. -/
structure KeyState where
  policy : Option Policy
  bucket : Option Bucket
  stats : Option Stats
deriving DecidableEq, Repr

/-- `_ensure_policy_and_bucket`: lazily create the policy (from
`PLAN_BASE`), the bucket (full: `tokens = burst`, `last = now`) and the
stats window for a key. -/
def ensurePolicyAndBucket (t : Tenant) (now : ℚ) (s : KeyState) : KeyState :=
  let pol := s.policy.getD (planBase t)
  { policy := some pol
    bucket := some (s.bucket.getD { tokens := (pol.burst : ℚ), last := now })
    stats := some (s.stats.getD { ok := 0, blocked := 0, since := now }) }

/-- `_refill_tokens`: `tokens = min(burst, tokens + rps * elapsed)`,
`last = now`. -/
def refillTokens (cfg : Policy) (b : Bucket) (now : ℚ) : Bucket :=
  { tokens := min (cfg.burst : ℚ) (b.tokens + cfg.rps * (now - b.last))
    last := now }

/-- `_allow`: ensure the key exists, refill, then admit iff `tokens ≥ 1`,
consuming one token on admission.  The wildcard branch is unreachable
(`ensurePolicyAndBucket` always populates both entries). -/
def allow (t : Tenant) (now : ℚ) (s : KeyState) : Bool × KeyState :=
  let s1 := ensurePolicyAndBucket t now s
  match s1.policy, s1.bucket with
  | some p, some b =>
      let b1 := refillTokens p b now
      if 1 ≤ b1.tokens then
        (true, { s1 with bucket := some { b1 with tokens := b1.tokens - 1 } })
      else
        (false, { s1 with bucket := some b1 })
  | _, _ => (false, s1)

/-- `apply_policy`: ensure the key exists, then overwrite the policy with
`rps := max(1.0, rps)` and `burst := max(5, burst)`.  The bucket is left
untouched. -/
def applyPolicy (t : Tenant) (now : ℚ) (rps : ℚ) (burst : ℤ) (s : KeyState) : KeyState :=
  let s1 := ensurePolicyAndBucket t now s
  { s1 with policy := some { rps := max 1 rps, burst := max 5 burst } }

/-- A well-formed policy: `apply_policy` clamps to `rps ≥ 1`, `burst ≥ 5`,
and every `PLAN_BASE` entry satisfies the same bounds. -/
def PolicyWF (p : Policy) : Prop := 1 ≤ p.rps ∧ 5 ≤ p.burst

/-- The bucket bound invariant of a key: every present policy is
well-formed, a bucket never exists without its policy, and the token count
lies in `[0, burst]`. -/
def KeyInv (s : KeyState) : Prop :=
  (∀ p, s.policy = some p → PolicyWF p) ∧
  (s.bucket.isSome → s.policy.isSome) ∧
  (∀ p b, s.policy = some p → s.bucket = some b →
    0 ≤ b.tokens ∧ b.tokens ≤ (p.burst : ℚ))

/-- Like `KeyInv` but without the upper token bound: what survives a
policy application that shrinks `burst`. -/
def KeyInvWeak (s : KeyState) : Prop :=
  (∀ p, s.policy = some p → PolicyWF p) ∧
  (s.bucket.isSome → s.policy.isSome) ∧
  (∀ b, s.bucket = some b → 0 ≤ b.tokens)

/-- The clock never runs behind a bucket's last refill stamp. -/
def TimeWF (now : ℚ) (s : KeyState) : Prop :=
  ∀ b, s.bucket = some b → b.last ≤ now

/-- Token count of the ensured, refilled bucket: the value `_allow`
inspects when it makes the admission decision.  (The wildcard branch is
unreachable.) -/
def preDecisionTokens (t : Tenant) (now : ℚ) (s : KeyState) : ℚ :=
  match (ensurePolicyAndBucket t now s).policy, (ensurePolicyAndBucket t now s).bucket with
  | some p, some b => (refillTokens p b now).tokens
  | _, _ => 0

/-- A reachable enterprise key state: the tier-base policy with a full
bucket. -/
def entFullKey : KeyState :=
  { policy := some { rps := 15, burst := 40 }
    bucket := some { tokens := 40, last := 0 }
    stats := some { ok := 0, blocked := 0, since := 0 } }

/-!  ## Decision validator (`_validate_ai_decision`)  -/

/-- Python `int(...)` applied to a float: truncation toward zero. -/
def pyInt (x : ℚ) : ℤ := if 0 ≤ x then Rat.floor x else -(Rat.floor (-x))

/-- ASCII model of `str.lower()` on one character. -/
def lowerChar (c : Char) : Char :=
  if 'A' ≤ c ∧ c ≤ 'Z' then Char.ofNat (c.toNat + 32) else c

/-- `str.lower()`. -/
def strLower (s : String) : String := ⟨s.data.map lowerChar⟩

/-- Python slicing `s[:n]`. -/
def strTruncate (s : String) (n : ℕ) : String := ⟨s.data.take n⟩

/-- Oracle actions accepted by the validator. -/
inductive Action
  | up
  | down
  | same
deriving DecidableEq, Repr

/-- The membership test `action in ("up", "down", "same")`, combined with
turning the accepted string into an `Action`. -/
def parseAction (s : String) : Option Action :=
  if s = "up" then some .up
  else if s = "down" then some .down
  else if s = "same" then some .same
  else none

/-- The raw oracle decision: a JSON object whose fields may each be
missing (`raw.get(key, default)` supplies the defaults). -/
structure RawDecision where
  action : Option String
  new_rps : Option ℚ
  new_burst : Option ℚ
  confidence : Option ℚ
  reason : Option String
  scenario : Option String
deriving DecidableEq, Repr

/-- A validated decision as produced by `_validate_ai_decision`. -/
structure AIDecision where
  action : Action
  new_rps : ℚ
  new_burst : ℤ
  confidence : ℚ
  reason : String
  scenario : String
deriving DecidableEq, Repr

/-- `_validate_ai_decision(raw, cur_rps, cur_burst)`: reject unless
`action ∈ {up, down, same}`, `new_rps ∈ [1, 1000]` and
`new_burst ∈ [5, 5000]`; on acceptance clamp confidence to `[0.5, 1]` and
truncate the reason to 80 characters.  (`cur_burst` is accepted but never
read, exactly as in the source.) -/
def validateAIDecision (raw : RawDecision) (curRps : ℚ) (_curBurst : ℤ) :
    Option AIDecision :=
  match parseAction (strLower (raw.action.getD "same")) with
  | none => none
  | some act =>
    if ¬ (1 ≤ raw.new_rps.getD curRps ∧ raw.new_rps.getD curRps ≤ 1000) then none
    else
      if pyInt (raw.new_burst.getD (max 10 (raw.new_rps.getD curRps * 3))) < 5 ∨
         5000 < pyInt (raw.new_burst.getD (max 10 (raw.new_rps.getD curRps * 3))) then none
      else some
        { action := act
          new_rps := raw.new_rps.getD curRps
          new_burst := pyInt (raw.new_burst.getD (max 10 (raw.new_rps.getD curRps * 3)))
          confidence := max (1/2) (min (raw.confidence.getD (7/10)) 1)
          reason := strTruncate (raw.reason.getD "ai_decision") 80
          scenario := raw.scenario.getD "unknown" }

/-!  ## Decision engine / governance queue  -/

abbrev EndpointName := String

abbrev PairKey := Tenant × EndpointName

/-- An entry of `pending_decisions` (uuid modelled as a caller-supplied
`ℕ`). -/
structure PendingDecision where
  id : ℕ
  tenant : Tenant
  endpoint : EndpointName
  action : Action
  new_rps : ℚ
  new_burst : ℤ
  confidence : ℚ
  created : ℚ
  reason : String
  old_rps : ℚ
  scaling_factor : ℚ
deriving DecidableEq, Repr

/-- An entry of `decision_history`: either the record appended on
auto-apply, or an approved pending decision (with `applied = True` and the
approval timestamp set). -/
inductive HistoryEntry
  | auto (timestamp : ℚ) (tenant : Tenant) (endpoint : EndpointName)
      (action : Action) (oldRps newRps confidence : ℚ) (reason : String)
  | approvedEntry (d : PendingDecision) (approvedAt : ℚ)
deriving DecidableEq, Repr

/-- The whole control-plane state: the per-key dictionaries plus the
governance queue and decision history. -/
structure SysState where
  keys : PairKey → KeyState
  pending : List PendingDecision
  history : List HistoryEntry

/-- Point update of the per-key dictionaries. -/
def updateKey (k : PairKey) (f : KeyState → KeyState) (s : SysState) : SysState :=
  { s with keys := fun q => if q = k then f (s.keys k) else s.keys q }

def ensureSys (t : Tenant) (e : EndpointName) (now : ℚ) (s : SysState) : SysState :=
  updateKey (t, e) (ensurePolicyAndBucket t now) s

def applyPolicySys (t : Tenant) (e : EndpointName) (now rps : ℚ) (burst : ℤ)
    (s : SysState) : SysState :=
  updateKey (t, e) (applyPolicy t now rps burst) s

/-- Outcome of `_apply_or_queue` (the `status` field of its return
value). -/
inductive AOQResult
  | applied
  | pending (id : ℕ)
  | noChange
deriving DecidableEq, Repr

/-- `ratio >= LARGE_CHANGE_FACTOR or ratio <= 1.0 / LARGE_CHANGE_FACTOR`,
computed only when `old_rps > 0`. -/
def isLargeChange (oldRps newRps : ℚ) : Bool :=
  if 0 < oldRps then
    decide (LARGE_CHANGE_FACTOR ≤ newRps / oldRps) ||
      decide (newRps / oldRps ≤ 1 / LARGE_CHANGE_FACTOR)
  else false

/-- The `old_rps = policies[pair]["rps"]` read by `_apply_or_queue` after
its `_ensure_policy_and_bucket` call (the `getD` default is unreachable:
the ensured policy is always present). -/
def aoqOldRps (t : Tenant) (e : EndpointName) (now : ℚ) (s : SysState) : ℚ :=
  (((ensureSys t e now s).keys (t, e)).policy.getD (planBase t)).rps

/-- `_apply_or_queue`: auto-apply when confidence is high, the change is
small and the action is not `same`; otherwise queue for approval (for
`action ≠ same`); otherwise report no change. -/
def applyOrQueue (t : Tenant) (e : EndpointName) (now : ℚ) (fresh : ℕ)
    (action : Action) (newRps : ℚ) (newBurst : ℤ) (confidence : ℚ)
    (reason : String) (s : SysState) : AOQResult × SysState :=
  if DECISION_MIN_CONF ≤ confidence ∧
      isLargeChange (aoqOldRps t e now s) newRps = false ∧ action ≠ .same then
    (.applied,
      { applyPolicySys t e now newRps newBurst (ensureSys t e now s) with
        history := (ensureSys t e now s).history ++
          [.auto now t e action (aoqOldRps t e now s) newRps confidence reason] })
  else if action ≠ .same then
    (.pending fresh,
      { ensureSys t e now s with
        pending := (ensureSys t e now s).pending ++
          [{ id := fresh, tenant := t, endpoint := e, action := action
             new_rps := newRps, new_burst := newBurst, confidence := confidence
             created := now, reason := reason, old_rps := aoqOldRps t e now s
             scaling_factor := if 0 < aoqOldRps t e now s
               then newRps / aoqOldRps t e now s else 1 }] })
  else (.noChange, ensureSys t e now s)

/-- Outcome of the `/ai/approve/<id>` handler. -/
inductive ApproveResult
  | approved
  | notFound
deriving DecidableEq, Repr

/-- `approve_decision`: look up the pending decision; if absent report
not-found without touching any state, else apply its policy, append it to
history with the approval timestamp, and remove it from the pending set
(dict deletion modelled as filtering the unique key out). -/
def approveDecision (decisionId : ℕ) (now : ℚ) (s : SysState) :
    ApproveResult × SysState :=
  match s.pending.find? (fun d => d.id == decisionId) with
  | none => (.notFound, s)
  | some d =>
    let s1 := applyPolicySys d.tenant d.endpoint now d.new_rps d.new_burst s
    (.approved,
      { s1 with
        history := s1.history ++ [.approvedEntry d now]
        pending := s1.pending.filter (fun q => q.id != decisionId) })

/-!  ## Surge predictor (`_analyze_surge_patterns`,
`_preemptive_surge_scaling`)  -/

/-- One entry of `surge_history[pair]` (the constant `window` field is
never read and is omitted). -/
structure SurgeSample where
  timestamp : ℚ
  rps : ℚ
deriving DecidableEq, Repr

/-- Keep only the last 5 minutes of samples. -/
def pruneSurgeHistory (now : ℚ) (h : List SurgeSample) : List SurgeSample :=
  h.filter (fun x => now - 300 < x.timestamp)

/-- Trend over the last up-to-3 samples:
`(recent[-1].rps - recent[0].rps) / len(recent)` when at least two are
present.  The `getD` defaults are unreachable under the length guard. -/
def surgeTrend (h : List SurgeSample) : ℚ :=
  let recent := h.drop (h.length - 3)
  if 2 ≤ recent.length then
    ((recent.getLast?.getD { timestamp := 0, rps := 0 }).rps -
      (recent.head?.getD { timestamp := 0, rps := 0 }).rps) / (recent.length : ℚ)
  else 0

/-- `_calculate_business_priority`. -/
def businessPriority : Tenant → ℚ
  | .free => 1
  | .pro => 2
  | .ent => 5

/-- The banded base surge probability (before the business-priority
multiplier), matching the `if/elif` chain of the source. -/
def surgeBase (trend currentRps : ℚ) : ℚ :=
  if 1/5 ≤ trend ∧ trend ≤ 2 then min 30 (10 + trend * 8)
  else if 2 < trend ∧ trend ≤ 10 then min 70 (30 + trend * 5)
  else if 10 < trend ∨ 50 < currentRps then min 100 (70 + min 30 trend)
  else 0

/-- The banded peak extrapolation of the same `if/elif` chain. -/
def surgeRawPeak (trend currentRps : ℚ) : ℚ :=
  if 1/5 ≤ trend ∧ trend ≤ 2 then currentRps + trend * 2
  else if 2 < trend ∧ trend ≤ 10 then currentRps + trend * 3
  else if 10 < trend ∨ 50 < currentRps then currentRps + trend * 4
  else currentRps

/-- The severity band the `if/elif` chain routes a `(trend, rps)` pair
into. -/
inductive SurgeBand
  | gradual
  | moderate
  | severe
  | quiet
deriving DecidableEq, Repr

def surgeBandOf (trend currentRps : ℚ) : SurgeBand :=
  if 1/5 ≤ trend ∧ trend ≤ 2 then .gradual
  else if 2 < trend ∧ trend ≤ 10 then .moderate
  else if 10 < trend ∨ 50 < currentRps then .severe
  else .quiet

/-- Surge probability as a function of the computed trend: the banded base
scaled by the business multiplier `0.8 + priority * 0.15` and clamped to
100. -/
def surgeProbOfTrend (t : Tenant) (trend currentRps : ℚ) : ℚ :=
  min 100 (surgeBase trend currentRps * (4/5 + businessPriority t * (3/20)))

/-- Return value of `_analyze_surge_patterns` together with the updated
`surge_history[pair]`. -/
structure SurgeResult where
  history : List SurgeSample
  surge_probability : ℚ
  trend : ℚ
  predicted_peak : ℚ
deriving DecidableEq, Repr

/-- `_analyze_surge_patterns`: append the current sample, prune to 300s,
return the zero signal when fewer than 2 samples remain, else the banded
probability / trend / peak. -/
def analyzeSurgePatterns (t : Tenant) (now currentRps : ℚ)
    (hist : List SurgeSample) : SurgeResult :=
  let h1 := pruneSurgeHistory now (hist ++ [{ timestamp := now, rps := currentRps }])
  if h1.length < 2 then
    { history := h1, surge_probability := 0, trend := 0, predicted_peak := currentRps }
  else
    { history := h1
      surge_probability := surgeProbOfTrend t (surgeTrend h1) currentRps
      trend := surgeTrend h1
      predicted_peak := max currentRps (surgeRawPeak (surgeTrend h1) currentRps) }

/-- The tenant-tier × severity-band scaling factor table of
`_preemptive_surge_scaling`. -/
def surgeScalingFactor (t : Tenant) (prob trend : ℚ) : ℚ :=
  if 80 ≤ prob ∨ 15 < trend then
    match t with | .ent => 8 | .pro => 5 | .free => 3
  else if 50 ≤ prob then
    match t with | .ent => 4 | .pro => 5/2 | .free => 9/5
  else
    match t with | .ent => 11/5 | .pro => 17/10 | .free => 7/5

/-- The `action_type` label selected alongside the factor. -/
def surgeActionType (prob trend : ℚ) : String :=
  if 80 ≤ prob ∨ 15 < trend then "ddos_protection"
  else if 50 ≤ prob then "surge_scaling"
  else "growth_scaling"

/-- A preemptive scale proposal (the `surge_scale` return value of
`_preemptive_surge_scaling`). -/
structure SurgeProposal where
  new_rps : ℚ
  new_burst : ℤ
  scaling_factor : ℚ
  confidence : ℚ
  actionType : String
deriving DecidableEq, Repr

/-- `_preemptive_surge_scaling`: no proposal below probability 25;
otherwise scale the current policy by the tier/severity factor, capped at
500 RPS / 2000 burst, with confidence `0.88 + prob/500`.  (The percentage
number formatted into the reason string is abstracted into the action-type
label; the `surge_predictions` cache is metric-only state.) -/
def preemptiveSurgeScaling (t : Tenant) (pol : Policy) (prob trend : ℚ) :
    Option SurgeProposal :=
  if prob < 25 then none
  else
    some { new_rps := min 500 (pol.rps * surgeScalingFactor t prob trend)
           new_burst := min 2000 (pyInt ((pol.burst : ℚ) * surgeScalingFactor t prob trend))
           scaling_factor := surgeScalingFactor t prob trend
           confidence := 22/25 + prob / 500
           actionType := surgeActionType prob trend }

/-- The surge-override path of one `_heuristics_loop` cycle for one key:
analyze the trailing history, and when a preemptive proposal results,
resolve it through `_apply_or_queue` with action `"up"` and the proposal's
own confidence. -/
def surgeCycleStep (t : Tenant) (e : EndpointName) (now : ℚ) (fresh : ℕ)
    (okRps : ℚ) (hist : List SurgeSample) (s : SysState) :
    Option (AOQResult × SysState) :=
  let sd := analyzeSurgePatterns t now okRps hist
  let pol := (s.keys (t, e)).policy.getD { rps := 10, burst := 30 }
  match preemptiveSurgeScaling t pol sd.surge_probability sd.trend with
  | none => none
  | some prop =>
    some (applyOrQueue t e now fresh .up prop.new_rps prop.new_burst
      prop.confidence prop.actionType s)

/-- A whole-system state in which every key carries the enterprise base
policy with a full bucket and nothing is queued. -/
def entFullSys : SysState :=
  { keys := fun _ => entFullKey, pending := [], history := [] }

/-!  ## Theorems  -/

theorem planBase_wf (t : Tenant) : PolicyWF (planBase t) := by
  cases t <;> constructor <;> norm_num [planBase]

theorem keyInv_weaken {s : KeyState} (h : KeyInv s) : KeyInvWeak s := by
  obtain ⟨h1, h2, h3⟩ := h
  refine ⟨h1, h2, ?_⟩
  intro b hb
  rcases hp : s.policy with _ | p
  · exact absurd (h2 (by simp [hb])) (by simp [hp])
  · exact (h3 p b hp hb).1

theorem ensure_policy_eq (t : Tenant) (now : ℚ) (s : KeyState) :
    (ensurePolicyAndBucket t now s).policy = some (s.policy.getD (planBase t)) := rfl

theorem ensure_keyInv (t : Tenant) (now : ℚ) {s : KeyState} (h : KeyInv s) :
    KeyInv (ensurePolicyAndBucket t now s) := by
  obtain ⟨h1, h2, h3⟩ := h
  refine ⟨?_, by simp [ensurePolicyAndBucket], ?_⟩
  · intro p hp
    rcases hs : s.policy with _ | p0
    · simp [ensurePolicyAndBucket, hs] at hp
      exact hp ▸ planBase_wf t
    · simp [ensurePolicyAndBucket, hs] at hp
      exact hp ▸ h1 p0 hs
  · intro p b hp hb
    rcases hsb : s.bucket with _ | b0
    · -- a fresh bucket is created full
      rcases hs : s.policy with _ | p0 <;>
        simp [ensurePolicyAndBucket, hs, hsb] at hp hb <;>
        subst hp <;> subst hb
      · have := planBase_wf t
        constructor
        · have : (5:ℚ) ≤ ((planBase t).burst : ℚ) := by exact_mod_cast this.2
          linarith
        · simp
      · have := h1 p0 hs
        constructor
        · have : (5:ℚ) ≤ ((p0).burst : ℚ) := by exact_mod_cast this.2
          linarith
        · simp
    · -- the existing bucket is kept; its policy must already exist
      have hps : s.policy.isSome := h2 (by simp [hsb])
      rcases hs : s.policy with _ | p0
      · simp [hs] at hps
      · simp [ensurePolicyAndBucket, hs, hsb] at hp hb
        exact hp ▸ hb ▸ h3 p0 b0 hs hsb

theorem ensure_timeWF (t : Tenant) (now : ℚ) {s : KeyState}
    (h : TimeWF now s) : TimeWF now (ensurePolicyAndBucket t now s) := by
  intro b hb
  rcases hsb : s.bucket with _ | b0
  · simp [ensurePolicyAndBucket, hsb] at hb
    simp [← hb]
  · simp [ensurePolicyAndBucket, hsb] at hb
    exact hb ▸ h b0 hsb

theorem refill_bounds {p : Policy} {b : Bucket} {now : ℚ}
    (hp : PolicyWF p) (hb : 0 ≤ b.tokens) (ht : b.last ≤ now) :
    0 ≤ (refillTokens p b now).tokens ∧
      (refillTokens p b now).tokens ≤ (p.burst : ℚ) := by
  obtain ⟨hrps, hburst⟩ := hp
  have hburst' : (5:ℚ) ≤ (p.burst : ℚ) := by exact_mod_cast hburst
  constructor
  · apply le_min (by linarith)
    have : 0 ≤ p.rps * (now - b.last) := by
      apply mul_nonneg (by linarith) (by linarith)
    linarith
  · exact min_le_left _ _

theorem preDecisionTokens_spec (t : Tenant) (now : ℚ) (s : KeyState) :
    preDecisionTokens t now s =
      (refillTokens (s.policy.getD (planBase t))
        (s.bucket.getD
          { tokens := ((s.policy.getD (planBase t)).burst : ℚ), last := now }) now).tokens := rfl

theorem ensured_policyWF (t : Tenant) {s : KeyState} (h : KeyInvWeak s) :
    PolicyWF (s.policy.getD (planBase t)) := by
  rcases hs : s.policy with _ | p0
  · simpa using planBase_wf t
  · simpa using h.1 p0 hs

theorem ensured_bucket_tokens_nonneg (t : Tenant) (now : ℚ) {s : KeyState}
    (h : KeyInvWeak s) :
    0 ≤ (s.bucket.getD
      { tokens := ((s.policy.getD (planBase t)).burst : ℚ), last := now }).tokens := by
  rcases hsb : s.bucket with _ | b0
  · have h5 : (5:ℚ) ≤ ((s.policy.getD (planBase t)).burst : ℚ) := by
      exact_mod_cast (ensured_policyWF t h).2
    simp only [Option.getD_none, hsb]
    linarith
  · simpa using h.2.2 b0 hsb

theorem ensured_bucket_last_le (t : Tenant) (now : ℚ) {s : KeyState}
    (ht : TimeWF now s) :
    (s.bucket.getD
      { tokens := ((s.policy.getD (planBase t)).burst : ℚ), last := now }).last ≤ now := by
  rcases hsb : s.bucket with _ | b0
  · simp [hsb]
  · simpa using ht b0 hsb

/-- Unfolding of `allow`: the unreachable wildcard branch drops out because
`ensurePolicyAndBucket` always populates policy and bucket. -/
theorem allow_eq_ite (t : Tenant) (now : ℚ) (s : KeyState) :
    allow t now s =
      if 1 ≤ preDecisionTokens t now s then
        (true,
          { policy := some (s.policy.getD (planBase t))
            bucket := some { tokens := preDecisionTokens t now s - 1, last := now }
            stats := some (s.stats.getD { ok := 0, blocked := 0, since := now }) })
      else
        (false,
          { policy := some (s.policy.getD (planBase t))
            bucket := some { tokens := preDecisionTokens t now s, last := now }
            stats := some (s.stats.getD { ok := 0, blocked := 0, since := now }) }) := rfl

/-- The admission step re-establishes the full bucket invariant even from
the weak one (the refill caps the token count at the current burst). -/
theorem allow_keyInv (t : Tenant) (now : ℚ) {s : KeyState}
    (h : KeyInvWeak s) (ht : TimeWF now s) : KeyInv ((allow t now s).2) := by
  have hpWF := ensured_policyWF t h
  have hre := @refill_bounds (s.policy.getD (planBase t))
    (s.bucket.getD
      { tokens := ((s.policy.getD (planBase t)).burst : ℚ), last := now }) now
    hpWF (ensured_bucket_tokens_nonneg t now h) (ensured_bucket_last_le t now ht)
  rw [← preDecisionTokens_spec] at hre
  rw [allow_eq_ite]
  split
  all_goals rename_i hif
  all_goals refine ⟨?_, by simp, ?_⟩
  · intro p hp
    simp only [Option.some.injEq] at hp
    exact hp ▸ hpWF
  · intro p b hp hb
    simp only [Option.some.injEq] at hp hb
    subst hp; subst hb
    exact ⟨by simp only []; linarith [hre.1, hif], by simp only []; linarith [hre.2]⟩
  · intro p hp
    simp only [Option.some.injEq] at hp
    exact hp ▸ hpWF
  · intro p b hp hb
    simp only [Option.some.injEq] at hp hb
    subst hp; subst hb
    exact ⟨hre.1, hre.2⟩

theorem allow_timeWF (t : Tenant) (now : ℚ) (s : KeyState) :
    TimeWF now ((allow t now s).2) := by
  rw [allow_eq_ite]
  split <;>
  · intro b hb
    simp only [Option.some.injEq] at hb
    simp [← hb]

/-- `apply_policy` keeps policies well-formed and token counts
non-negative, but makes no attempt to re-cap tokens at the new burst. -/
theorem applyPolicy_keyInvWeak (t : Tenant) (now rps : ℚ) (burst : ℤ)
    {s : KeyState} (h : KeyInvWeak s) :
    KeyInvWeak (applyPolicy t now rps burst s) := by
  obtain ⟨h1, h2, h3⟩ := h
  refine ⟨?_, by simp [applyPolicy, ensurePolicyAndBucket], ?_⟩
  · intro p hp
    simp only [applyPolicy, ensurePolicyAndBucket, Option.some.injEq] at hp
    refine hp ▸ ⟨le_max_left _ _, le_max_left _ _⟩
  · intro b hb
    simp only [applyPolicy, ensurePolicyAndBucket, Option.some.injEq] at hb
    subst hb
    exact ensured_bucket_tokens_nonneg t now ⟨h1, h2, h3⟩

theorem applyPolicy_timeWF (t : Tenant) (now rps : ℚ) (burst : ℤ)
    {s : KeyState} (ht : TimeWF now s) :
    TimeWF now (applyPolicy t now rps burst s) := by
  intro b hb
  simp only [applyPolicy, ensurePolicyAndBucket, Option.some.injEq] at hb
  subst hb
  exact ensured_bucket_last_le t now ht

theorem timeWF_mono {now nowLater : ℚ} {s : KeyState}
    (h : TimeWF now s) (hle : now ≤ nowLater) : TimeWF nowLater s :=
  fun b hb => le_trans (h b hb) hle

/-- C1 (amended): lazy creation and admission preserve the `[0, burst]`
token bound; a policy application keeps tokens non-negative but only the
weak invariant, and the bound is restored by the refill at the start of
the next admission. -/
theorem claim_C1_bucket_bounds_amended :
    (∀ (t : Tenant) (now : ℚ) (s : KeyState),
       KeyInv s → KeyInv (ensurePolicyAndBucket t now s)) ∧
    (∀ (t : Tenant) (now : ℚ) (s : KeyState),
       KeyInv s → TimeWF now s → KeyInv ((allow t now s).2)) ∧
    (∀ (t : Tenant) (now rps : ℚ) (burst : ℤ) (s : KeyState),
       KeyInv s → KeyInvWeak (applyPolicy t now rps burst s)) ∧
    (∀ (t tLater : Tenant) (now nowLater rps : ℚ) (burst : ℤ) (s : KeyState),
       KeyInv s → TimeWF now s → now ≤ nowLater →
       KeyInv ((allow tLater nowLater (applyPolicy t now rps burst s)).2)) := by
  refine ⟨fun t now s h => ensure_keyInv t now h,
          fun t now s h ht => allow_keyInv t now (keyInv_weaken h) ht,
          fun t now rps burst s h => applyPolicy_keyInvWeak t now rps burst (keyInv_weaken h),
          fun t tLater now nowLater rps burst s h ht hle => ?_⟩
  exact allow_keyInv tLater nowLater
    (applyPolicy_keyInvWeak t now rps burst (keyInv_weaken h))
    (timeWF_mono (applyPolicy_timeWF t now rps burst ht) hle)

/-- Witness for C1 (amended) at a concrete state: lowering the burst of a
full enterprise bucket and then admitting once yields an invariant-holding
state again. -/
theorem claim_C1_bucket_bounds_amended_witness :
    KeyInv ((allow .ent 1 (applyPolicy .ent 0 15 5 entFullKey)).2) := by
  apply claim_C1_bucket_bounds_amended.2.2.2 .ent .ent 0 1 15 5 entFullKey
  · refine ⟨?_, by simp [entFullKey], ?_⟩
    · intro p hp
      simp only [entFullKey, Option.some.injEq] at hp
      exact hp ▸ ⟨by norm_num, by norm_num⟩
    · intro p b hp hb
      simp only [entFullKey, Option.some.injEq] at hp hb
      subst hp; subst hb
      exact ⟨by norm_num, by norm_num⟩
  · intro b hb
    simp only [entFullKey, Option.some.injEq] at hb
    subst hb
    norm_num
  · norm_num

/-- C1 as stated is false at a concrete input: `apply_policy` lowering the
burst of a full bucket (40 tokens) to 5 leaves `tokens = 40 > burst = 5`,
because the token count is never re-capped at policy-application time. -/
theorem claim_C1_counterexample :
    (applyPolicy .ent 0 15 5 entFullKey).policy.map Policy.burst = some 5 ∧
    (applyPolicy .ent 0 15 5 entFullKey).bucket.map Bucket.tokens = some 40 ∧
    ¬ ((40:ℚ) ≤ ((5:ℤ) : ℚ)) := by decide

/-- C2: admission is deterministic in the post-refill token count: with at
least one token the call allows and consumes exactly one; otherwise it
denies and leaves the count unchanged. -/
theorem claim_C2_admission_deterministic (t : Tenant) (now : ℚ) (s : KeyState) :
    (1 ≤ preDecisionTokens t now s →
       (allow t now s).1 = true ∧
       (allow t now s).2.bucket.map Bucket.tokens =
         some (preDecisionTokens t now s - 1)) ∧
    (preDecisionTokens t now s < 1 →
       (allow t now s).1 = false ∧
       (allow t now s).2.bucket.map Bucket.tokens =
         some (preDecisionTokens t now s)) := by
  constructor <;> intro h <;> rw [allow_eq_ite]
  · rw [if_pos h]
    exact ⟨rfl, rfl⟩
  · rw [if_neg (by linarith)]
    exact ⟨rfl, rfl⟩

/-- Witness for C2 at a fresh free-tier key (10 tokens after creation):
the call allows and leaves 9 tokens. -/
theorem claim_C2_admission_deterministic_witness :
    (allow .free 0 { policy := none, bucket := none, stats := none }).1 = true ∧
    (allow .free 0 { policy := none, bucket := none, stats := none }).2.bucket.map
      Bucket.tokens =
      some (preDecisionTokens .free 0 { policy := none, bucket := none, stats := none } - 1) :=
  (claim_C2_admission_deterministic .free 0
    { policy := none, bucket := none, stats := none }).1
    (by rw [preDecisionTokens_spec]; norm_num [refillTokens, planBase])

/-- C10: the bucket lazily created on first traffic starts full
(`tokens = burst`), and since every burst is at least 5 the first request
on a brand-new key is always allowed. -/
theorem claim_C10_first_request_allowed (t : Tenant) (now : ℚ) (s : KeyState)
    (hinv : KeyInv s) (hb : s.bucket = none) :
    (ensurePolicyAndBucket t now s).bucket =
      some { tokens := ((s.policy.getD (planBase t)).burst : ℚ), last := now } ∧
    (allow t now s).1 = true ∧
    (allow t now s).2.bucket.map Bucket.tokens =
      some (((s.policy.getD (planBase t)).burst : ℚ) - 1) := by
  have hpWF := ensured_policyWF t (keyInv_weaken hinv)
  have hb5 : (5:ℚ) ≤ ((s.policy.getD (planBase t)).burst : ℚ) := by
    exact_mod_cast hpWF.2
  have hpre : preDecisionTokens t now s =
      ((s.policy.getD (planBase t)).burst : ℚ) := by
    rw [preDecisionTokens_spec, hb]
    simp [refillTokens]
  refine ⟨by simp [ensurePolicyAndBucket, hb], ?_, ?_⟩
  · rw [allow_eq_ite, if_pos (by rw [hpre]; linarith)]
  · rw [allow_eq_ite, if_pos (by rw [hpre]; linarith)]
    simp [hpre]

/-- Witness for C10: a key holding only an enterprise policy (no bucket
yet) admits its first request, leaving `40 - 1` tokens. -/
theorem claim_C10_first_request_allowed_witness :
    (ensurePolicyAndBucket .ent 2
      { policy := some { rps := 15, burst := 40 }, bucket := none, stats := none }).bucket =
      some { tokens := 40, last := 2 } ∧
    (allow .ent 2
      { policy := some { rps := 15, burst := 40 }, bucket := none, stats := none }).1 = true ∧
    (allow .ent 2
      { policy := some { rps := 15, burst := 40 }, bucket := none,
        stats := none }).2.bucket.map Bucket.tokens = some 39 := by
  have h := claim_C10_first_request_allowed .ent 2
    { policy := some { rps := 15, burst := 40 }, bucket := none, stats := none }
    ⟨by intro p hp; simp only [Option.some.injEq] at hp;
        exact hp ▸ ⟨by norm_num, by norm_num⟩,
     by simp,
     by intro p b hp hb; simp at hb⟩ rfl
  refine ⟨?_, h.2.1, ?_⟩
  · rw [h.1]; norm_num
  · rw [h.2.2]; norm_num

theorem strTruncate_length_le (s : String) (n : ℕ) : (strTruncate s n).length ≤ n := by
  show (s.data.take n).length ≤ n
  rw [List.length_take]
  exact min_le_left _ _

theorem validateAIDecision_spec (raw : RawDecision) (curRps : ℚ)
    (curBurst : ℤ) :
    (parseAction (strLower (raw.action.getD "same")) = none →
       validateAIDecision raw curRps curBurst = none) ∧
    (¬ (1 ≤ raw.new_rps.getD curRps ∧ raw.new_rps.getD curRps ≤ 1000) →
       validateAIDecision raw curRps curBurst = none) ∧
    (pyInt (raw.new_burst.getD (max 10 (raw.new_rps.getD curRps * 3))) < 5 ∨
       5000 < pyInt (raw.new_burst.getD (max 10 (raw.new_rps.getD curRps * 3))) →
       validateAIDecision raw curRps curBurst = none) ∧
    (∀ d, validateAIDecision raw curRps curBurst = some d →
       d.confidence = max (1/2) (min (raw.confidence.getD (7/10)) 1) ∧
       1/2 ≤ d.confidence ∧ d.confidence ≤ 1 ∧
       (raw.confidence.getD (7/10) < 1/2 → d.confidence = 1/2) ∧
       d.reason.length ≤ 80 ∧
       d.new_rps = raw.new_rps.getD curRps ∧
       1 ≤ d.new_rps ∧ d.new_rps ≤ 1000 ∧
       5 ≤ d.new_burst ∧ d.new_burst ≤ 5000) := by
  rcases hp : parseAction (strLower (raw.action.getD "same")) with _ | act
  · have hnone : validateAIDecision raw curRps curBurst = none := by
      unfold validateAIDecision
      rw [hp]
    exact ⟨fun _ => hnone, fun _ => hnone, fun _ => hnone,
      fun d hd => by rw [hnone] at hd; simp at hd⟩
  · have heq : validateAIDecision raw curRps curBurst =
        if ¬ (1 ≤ raw.new_rps.getD curRps ∧ raw.new_rps.getD curRps ≤ 1000) then none
        else
          if pyInt (raw.new_burst.getD (max 10 (raw.new_rps.getD curRps * 3))) < 5 ∨
             5000 < pyInt (raw.new_burst.getD (max 10 (raw.new_rps.getD curRps * 3))) then none
          else some
            { action := act
              new_rps := raw.new_rps.getD curRps
              new_burst := pyInt (raw.new_burst.getD (max 10 (raw.new_rps.getD curRps * 3)))
              confidence := max (1/2) (min (raw.confidence.getD (7/10)) 1)
              reason := strTruncate (raw.reason.getD "ai_decision") 80
              scenario := raw.scenario.getD "unknown" } := by
      unfold validateAIDecision
      rw [hp]
    rw [heq]
    refine ⟨fun hno => by simp at hno, ?_, ?_, ?_⟩
    · intro h1
      rw [if_pos h1]
    · intro h2
      by_cases h1 : 1 ≤ raw.new_rps.getD curRps ∧ raw.new_rps.getD curRps ≤ 1000
      · rw [if_neg (not_not_intro h1), if_pos h2]
      · rw [if_pos h1]
    · intro d hd
      by_cases h1 : 1 ≤ raw.new_rps.getD curRps ∧ raw.new_rps.getD curRps ≤ 1000
      swap
      · rw [if_pos h1] at hd
        simp at hd
      by_cases h2 : pyInt (raw.new_burst.getD (max 10 (raw.new_rps.getD curRps * 3))) < 5 ∨
          5000 < pyInt (raw.new_burst.getD (max 10 (raw.new_rps.getD curRps * 3)))
      · rw [if_neg (not_not_intro h1), if_pos h2] at hd
        simp at hd
      · rw [if_neg (not_not_intro h1), if_neg h2] at hd
        push_neg at h2
        simp only [Option.some.injEq] at hd
        subst hd
        refine ⟨rfl, le_max_left _ _,
          max_le (by norm_num) (min_le_right _ _), ?_,
          strTruncate_length_le _ 80, rfl, h1.1, h1.2, h2.1, h2.2⟩
        intro hlow
        exact max_eq_left (le_of_lt (lt_of_le_of_lt (min_le_left _ _) hlow))

/-- C4: oracle-decision validation is all-or-nothing: a bad action, an
out-of-range `new_rps` or an out-of-range `new_burst` each reject the
whole decision; an accepted decision carries the confidence clamped into
`[0.5, 1]` (with sub-0.5 values raised to 0.5) and a reason of at most 80
characters. -/
theorem claim_C4_validator_all_or_nothing (raw : RawDecision) (curRps : ℚ)
    (curBurst : ℤ) :
    (parseAction (strLower (raw.action.getD "same")) = none →
       validateAIDecision raw curRps curBurst = none) ∧
    (¬ (1 ≤ raw.new_rps.getD curRps ∧ raw.new_rps.getD curRps ≤ 1000) →
       validateAIDecision raw curRps curBurst = none) ∧
    (pyInt (raw.new_burst.getD (max 10 (raw.new_rps.getD curRps * 3))) < 5 ∨
       5000 < pyInt (raw.new_burst.getD (max 10 (raw.new_rps.getD curRps * 3))) →
       validateAIDecision raw curRps curBurst = none) ∧
    (∀ d, validateAIDecision raw curRps curBurst = some d →
       d.confidence = max (1/2) (min (raw.confidence.getD (7/10)) 1) ∧
       1/2 ≤ d.confidence ∧ d.confidence ≤ 1 ∧
       (raw.confidence.getD (7/10) < 1/2 → d.confidence = 1/2) ∧
       d.reason.length ≤ 80 ∧
       d.new_rps = raw.new_rps.getD curRps ∧
       1 ≤ d.new_rps ∧ d.new_rps ≤ 1000 ∧
       5 ≤ d.new_burst ∧ d.new_burst ≤ 5000) :=
  validateAIDecision_spec raw curRps curBurst

/-- Witness for C4: the spec scenario `new_rps = 2000` is rejected whole,
while a well-formed raw decision with confidence 0.3 is accepted with
confidence clamped up to 0.5. -/
theorem claim_C4_validator_all_or_nothing_witness :
    validateAIDecision
      { action := some "up", new_rps := some 2000, new_burst := some 75
        confidence := some (9/10), reason := some "scale", scenario := none } 10 30 = none ∧
    ∀ d, validateAIDecision
      { action := some "up", new_rps := some 25, new_burst := some 75
        confidence := some (3/10), reason := some "scale", scenario := none } 10 30 = some d →
      d.confidence = 1/2 := by
  constructor
  · exact (claim_C4_validator_all_or_nothing
      { action := some "up", new_rps := some 2000, new_burst := some 75
        confidence := some (9/10), reason := some "scale", scenario := none } 10 30).2.1
      (by norm_num)
  · intro d hd
    exact ((claim_C4_validator_all_or_nothing
      { action := some "up", new_rps := some 25, new_burst := some 75
        confidence := some (3/10), reason := some "scale", scenario := none } 10 30).2.2.2
      d hd).2.2.2.1 (by norm_num)

theorem analyze_history_eq (t : Tenant) (now rps : ℚ) (hist : List SurgeSample) :
    (analyzeSurgePatterns t now rps hist).history =
      pruneSurgeHistory now (hist ++ [{ timestamp := now, rps := rps }]) := by
  unfold analyzeSurgePatterns
  dsimp only
  split <;> rfl

theorem analyze_prob_short (t : Tenant) (now rps : ℚ) (hist : List SurgeSample)
    (h : (pruneSurgeHistory now (hist ++ [{ timestamp := now, rps := rps }])).length < 2) :
    (analyzeSurgePatterns t now rps hist).surge_probability = 0 := by
  unfold analyzeSurgePatterns
  dsimp only
  rw [if_pos h]

theorem analyze_prob_long (t : Tenant) (now rps : ℚ) (hist : List SurgeSample)
    (h : ¬ (pruneSurgeHistory now (hist ++ [{ timestamp := now, rps := rps }])).length < 2) :
    (analyzeSurgePatterns t now rps hist).surge_probability =
      surgeProbOfTrend t (analyzeSurgePatterns t now rps hist).trend rps ∧
    (analyzeSurgePatterns t now rps hist).trend =
      surgeTrend (pruneSurgeHistory now (hist ++ [{ timestamp := now, rps := rps }])) := by
  unfold analyzeSurgePatterns
  dsimp only
  rw [if_neg h]
  exact ⟨rfl, rfl⟩

theorem businessPriority_pos (t : Tenant) : 0 < businessPriority t := by
  cases t <;> norm_num [businessPriority]

theorem surgeBase_mono (rps t1 t2 : ℚ)
    (hb : surgeBandOf t1 rps = surgeBandOf t2 rps) (h12 : t1 ≤ t2) :
    surgeBase t1 rps ≤ surgeBase t2 rps := by
  unfold surgeBandOf at hb
  unfold surgeBase
  split_ifs at hb ⊢ <;>
    first
      | exact le_rfl
      | exact absurd hb (by decide)
      | gcongr

/-- C9: the computed surge probability is 0 with fewer than 2 pruned
samples, and, as a function of the trend, is non-decreasing within each
severity band (tenant and current RPS held fixed). -/
theorem claim_C9_surge_zero_and_monotone :
    (∀ (t : Tenant) (now rps : ℚ) (hist : List SurgeSample),
       (analyzeSurgePatterns t now rps hist).history.length < 2 →
       (analyzeSurgePatterns t now rps hist).surge_probability = 0) ∧
    (∀ (t : Tenant) (now rps : ℚ) (hist : List SurgeSample),
       2 ≤ (analyzeSurgePatterns t now rps hist).history.length →
       (analyzeSurgePatterns t now rps hist).surge_probability =
         surgeProbOfTrend t (analyzeSurgePatterns t now rps hist).trend rps) ∧
    (∀ (t : Tenant) (rps t1 t2 : ℚ),
       surgeBandOf t1 rps = surgeBandOf t2 rps → t1 ≤ t2 →
       surgeProbOfTrend t t1 rps ≤ surgeProbOfTrend t t2 rps) := by
  refine ⟨?_, ?_, ?_⟩
  · intro t now rps hist h
    rw [analyze_history_eq] at h
    exact analyze_prob_short t now rps hist h
  · intro t now rps hist h
    rw [analyze_history_eq] at h
    exact (analyze_prob_long t now rps hist (by omega)).1
  · intro t rps t1 t2 hb h12
    unfold surgeProbOfTrend
    have hbase := surgeBase_mono rps t1 t2 hb h12
    have hm : 0 < 4/5 + businessPriority t * (3/20) := by
      have := businessPriority_pos t
      linarith
    gcongr

/-- Witness for C9: a single-sample history yields probability zero; a
two-sample history yields the banded probability; and two gradual-band
trends compare monotonically. -/
theorem claim_C9_surge_zero_and_monotone_witness :
    (analyzeSurgePatterns .free 400 5 [{ timestamp := 0, rps := 1 }]).surge_probability = 0 ∧
    (analyzeSurgePatterns .free 1 5 [{ timestamp := 0, rps := 3 }]).surge_probability =
      surgeProbOfTrend .free
        (analyzeSurgePatterns .free 1 5 [{ timestamp := 0, rps := 3 }]).trend 5 ∧
    surgeProbOfTrend .pro (1/2) 5 ≤ surgeProbOfTrend .pro 1 5 := by
  refine ⟨?_, ?_, ?_⟩
  · apply claim_C9_surge_zero_and_monotone.1 .free 400 5
    rw [analyze_history_eq]
    norm_num [pruneSurgeHistory]
  · apply claim_C9_surge_zero_and_monotone.2.1 .free 1 5
    rw [analyze_history_eq]
    norm_num [pruneSurgeHistory]
  · exact claim_C9_surge_zero_and_monotone.2.2 .pro 5 (1/2) 1
      (by norm_num [surgeBandOf]) (by norm_num)

/-- C5 as stated is false at a concrete input: with two samples,
`currentObservedRps = 60 > 50` but trend `1` routes the `if/elif` chain
into the gradual-growth band, whose base probability is `18 < 70`. -/
theorem claim_C5_counterexample :
    2 ≤ (analyzeSurgePatterns .free 1 60 [{ timestamp := 0, rps := 58 }]).history.length ∧
    (50:ℚ) < 60 ∧
    surgeBase (analyzeSurgePatterns .free 1 60 [{ timestamp := 0, rps := 58 }]).trend 60 = 18 ∧
    ¬ ((70:ℚ) ≤ 18) := by
  have hh : (analyzeSurgePatterns .free 1 60 [{ timestamp := 0, rps := 58 }]).history =
      [{ timestamp := 0, rps := 58 }, { timestamp := 1, rps := 60 }] := by
    rw [analyze_history_eq]
    norm_num [pruneSurgeHistory]
  have htr : (analyzeSurgePatterns .free 1 60 [{ timestamp := 0, rps := 58 }]).trend = 1 := by
    have h2 : ¬ (pruneSurgeHistory 1
        ([{ timestamp := 0, rps := 58 }] ++ [{ timestamp := 1, rps := 60 }])).length < 2 := by
      norm_num [pruneSurgeHistory]
    rw [(analyze_prob_long .free 1 60 [{ timestamp := 0, rps := 58 }] h2).2]
    norm_num [pruneSurgeHistory, surgeTrend]
  refine ⟨by rw [hh]; norm_num, by norm_num, ?_, by norm_num⟩
  rw [htr]
  norm_num [surgeBase]

/-- C5 (amended): with at least 2 samples, whenever the computed trend
exceeds 10 the banded base probability (before the business-priority
multiplier) lies in `[70, 100]`; a large `currentObservedRps` alone does
not reach the severe band unless the trend falls outside the two growth
bands. -/
theorem claim_C5_severe_base_band_amended (t : Tenant) (now rps : ℚ)
    (hist : List SurgeSample)
    (_hlen : 2 ≤ (analyzeSurgePatterns t now rps hist).history.length)
    (htr : 10 < (analyzeSurgePatterns t now rps hist).trend) :
    70 ≤ surgeBase (analyzeSurgePatterns t now rps hist).trend rps ∧
    surgeBase (analyzeSurgePatterns t now rps hist).trend rps ≤ 100 := by
  set tr := (analyzeSurgePatterns t now rps hist).trend with htrdef
  unfold surgeBase
  rw [if_neg (by rintro ⟨h1, h2⟩; linarith),
      if_neg (by rintro ⟨h1, h2⟩; linarith),
      if_pos (Or.inl htr)]
  have hmin : (10:ℚ) ≤ min 30 tr := le_min (by norm_num) (by linarith)
  exact ⟨le_min (by norm_num) (by linarith), min_le_left _ _⟩

/-- Witness for C5 (amended): two samples jumping from 0 to 100 RPS give
trend 50 and a base probability of 100, inside `[70, 100]`. -/
theorem claim_C5_severe_base_band_amended_witness :
    70 ≤ surgeBase (analyzeSurgePatterns .ent 1 100 [{ timestamp := 0, rps := 0 }]).trend 100 ∧
    surgeBase (analyzeSurgePatterns .ent 1 100 [{ timestamp := 0, rps := 0 }]).trend 100 ≤ 100 := by
  have h2 : ¬ (pruneSurgeHistory 1
      ([{ timestamp := 0, rps := 0 }] ++ [{ timestamp := 1, rps := 100 }])).length < 2 := by
    norm_num [pruneSurgeHistory]
  have htr : (analyzeSurgePatterns .ent 1 100 [{ timestamp := 0, rps := 0 }]).trend = 50 := by
    rw [(analyze_prob_long .ent 1 100 [{ timestamp := 0, rps := 0 }] h2).2]
    norm_num [pruneSurgeHistory, surgeTrend]
  apply claim_C5_severe_base_band_amended .ent 1 100 [{ timestamp := 0, rps := 0 }]
  · rw [analyze_history_eq]
    norm_num [pruneSurgeHistory]
  · rw [htr]
    norm_num

/-- C7 (amended): no proposal below surge probability 25; at or above the
threshold the proposal scales the policy by the tier/band factor with
`new_rps = min(500, rps * factor)` and
`new_burst = min(2000, int(burst * factor))` (the product truncated to an
integer), confidence `0.88 + prob/500 ≥ 0.88`, and the factor table is
strictly decreasing from enterprise to pro to free in every band. -/
theorem claim_C7_preemptive_scaling_amended (t : Tenant) (pol : Policy)
    (prob trend : ℚ) :
    (prob < 25 → preemptiveSurgeScaling t pol prob trend = none) ∧
    (25 ≤ prob →
       preemptiveSurgeScaling t pol prob trend =
         some { new_rps := min 500 (pol.rps * surgeScalingFactor t prob trend)
                new_burst := min 2000 (pyInt ((pol.burst : ℚ) * surgeScalingFactor t prob trend))
                scaling_factor := surgeScalingFactor t prob trend
                confidence := 22/25 + prob / 500
                actionType := surgeActionType prob trend } ∧
       22/25 ≤ 22/25 + prob / 500) ∧
    (surgeScalingFactor .pro prob trend < surgeScalingFactor .ent prob trend ∧
     surgeScalingFactor .free prob trend < surgeScalingFactor .pro prob trend) := by
  refine ⟨?_, ?_, ?_⟩
  · intro h
    unfold preemptiveSurgeScaling
    rw [if_pos h]
  · intro h
    unfold preemptiveSurgeScaling
    rw [if_neg (by linarith)]
    exact ⟨rfl, by linarith⟩
  · unfold surgeScalingFactor
    split_ifs <;> norm_num

/-- Witness for C7 (amended): a free-tier policy `(rps 3, burst 7)` at
probability 30 yields the growth-band proposal. -/
theorem claim_C7_preemptive_scaling_amended_witness :
    preemptiveSurgeScaling .free { rps := 3, burst := 7 } 30 0 =
      some { new_rps := min 500 (({ rps := 3, burst := 7 } : Policy).rps *
                surgeScalingFactor .free 30 0)
             new_burst := min 2000 (pyInt ((({ rps := 3, burst := 7 } : Policy).burst : ℚ) *
                surgeScalingFactor .free 30 0))
             scaling_factor := surgeScalingFactor .free 30 0
             confidence := 22/25 + 30 / 500
             actionType := surgeActionType 30 0 } ∧
    (22:ℚ)/25 ≤ 22/25 + 30 / 500 :=
  (claim_C7_preemptive_scaling_amended .free { rps := 3, burst := 7 } 30 0).2.1
    (by norm_num)

/-- C7 as stated is false at a concrete input: for a free-tier policy with
`burst = 7` at probability 30 the factor is 1.4, and the proposal's burst
is `int(7 * 1.4) = 9`, not `min(2000, 7 * 1.4) = 9.8` — the code truncates
the product to an integer. -/
theorem claim_C7_counterexample :
    (preemptiveSurgeScaling .free { rps := 3, burst := 7 } 30 0).map
      SurgeProposal.new_burst = some 9 ∧
    ¬ ((((9:ℤ)) : ℚ) = min 2000 ((7:ℚ) * (7/5))) := by
  constructor
  · norm_num [preemptiveSurgeScaling, surgeScalingFactor, pyInt, Rat.floor_def']
  · norm_num

theorem isLargeChange_false_iff {o n : ℚ} (ho : 0 < o) :
    (isLargeChange o n = false) ↔
      (1 / LARGE_CHANGE_FACTOR < n / o ∧ n / o < LARGE_CHANGE_FACTOR) := by
  unfold isLargeChange
  rw [if_pos ho]
  simp only [Bool.or_eq_false_iff, decide_eq_false_iff_not, not_le]
  exact and_comm

theorem ensureSys_eq_self {t : Tenant} {e : EndpointName} {now : ℚ} {s : SysState}
    (hEns : ensurePolicyAndBucket t now (s.keys (t, e)) = s.keys (t, e)) :
    ensureSys t e now s = s := by
  unfold ensureSys updateKey
  cases s with
  | mk ks pending history =>
    simp only at hEns ⊢
    congr 1
    funext q
    by_cases hq : q = (t, e)
    · subst hq
      rw [if_pos rfl, hEns]
    · rw [if_neg hq]

/-- C3: with the key already ensured and a positive old rate, the engine
auto-applies iff confidence clears the floor and the change ratio lies
strictly inside `(1/LARGE_CHANGE_FACTOR, LARGE_CHANGE_FACTOR)` (for
`action ≠ same`); on auto-apply the policy is overwritten; otherwise a
pending entry carrying the proposal is appended and its id returned;
`action = same` is a pure no-op. -/
theorem claim_C3_resolve_apply_or_queue (t : Tenant) (e : EndpointName)
    (now : ℚ) (fresh : ℕ) (act : Action) (nrps : ℚ) (nburst : ℤ)
    (conf : ℚ) (reason : String) (s : SysState)
    (hEns : ensurePolicyAndBucket t now (s.keys (t, e)) = s.keys (t, e))
    (hOld : 0 < aoqOldRps t e now s) :
    (act ≠ .same →
      ((applyOrQueue t e now fresh act nrps nburst conf reason s).1 = .applied ↔
        (DECISION_MIN_CONF ≤ conf ∧
         1 / LARGE_CHANGE_FACTOR < nrps / aoqOldRps t e now s ∧
         nrps / aoqOldRps t e now s < LARGE_CHANGE_FACTOR))) ∧
    ((applyOrQueue t e now fresh act nrps nburst conf reason s).1 = .applied →
      ((applyOrQueue t e now fresh act nrps nburst conf reason s).2.keys (t, e)).policy =
        some { rps := max 1 nrps, burst := max 5 nburst }) ∧
    (act ≠ .same →
      ¬ (DECISION_MIN_CONF ≤ conf ∧
         1 / LARGE_CHANGE_FACTOR < nrps / aoqOldRps t e now s ∧
         nrps / aoqOldRps t e now s < LARGE_CHANGE_FACTOR) →
      (applyOrQueue t e now fresh act nrps nburst conf reason s).1 = .pending fresh ∧
      (applyOrQueue t e now fresh act nrps nburst conf reason s).2.pending =
        s.pending ++
          [{ id := fresh, tenant := t, endpoint := e, action := act
             new_rps := nrps, new_burst := nburst, confidence := conf
             created := now, reason := reason, old_rps := aoqOldRps t e now s
             scaling_factor := nrps / aoqOldRps t e now s }]) ∧
    (act = .same →
      applyOrQueue t e now fresh act nrps nburst conf reason s = (.noChange, s)) := by
  have hiff := isLargeChange_false_iff (n := nrps) hOld
  have notApplied : ∀ h : ¬ (DECISION_MIN_CONF ≤ conf ∧
      isLargeChange (aoqOldRps t e now s) nrps = false ∧ act ≠ .same),
      (applyOrQueue t e now fresh act nrps nburst conf reason s).1 ≠ .applied := by
    intro hc happ
    unfold applyOrQueue at happ
    rw [if_neg hc] at happ
    by_cases h2 : act ≠ .same
    · rw [if_pos h2] at happ
      simp at happ
    · rw [if_neg h2] at happ
      simp at happ
  refine ⟨?_, ?_, ?_, ?_⟩
  · intro hne
    constructor
    · intro happ
      by_cases hc : DECISION_MIN_CONF ≤ conf ∧
          isLargeChange (aoqOldRps t e now s) nrps = false ∧ act ≠ .same
      · exact ⟨hc.1, (hiff.mp hc.2.1).1, (hiff.mp hc.2.1).2⟩
      · exact absurd happ (notApplied hc)
    · intro hcond
      unfold applyOrQueue
      rw [if_pos ⟨hcond.1, hiff.mpr ⟨hcond.2.1, hcond.2.2⟩, hne⟩]
  · intro happ
    by_cases hc : DECISION_MIN_CONF ≤ conf ∧
        isLargeChange (aoqOldRps t e now s) nrps = false ∧ act ≠ .same
    · unfold applyOrQueue
      rw [if_pos hc]
      simp [applyPolicySys, updateKey, applyPolicy]
    · exact absurd happ (notApplied hc)
  · intro hne hnc
    have hc : ¬ (DECISION_MIN_CONF ≤ conf ∧
        isLargeChange (aoqOldRps t e now s) nrps = false ∧ act ≠ .same) := by
      rintro ⟨a, b, _⟩
      exact hnc ⟨a, (hiff.mp b).1, (hiff.mp b).2⟩
    unfold applyOrQueue
    rw [if_neg hc, if_pos hne]
    refine ⟨rfl, ?_⟩
    rw [if_pos hOld]
    rfl
  · intro hsame
    have hc : ¬ (DECISION_MIN_CONF ≤ conf ∧
        isLargeChange (aoqOldRps t e now s) nrps = false ∧ act ≠ .same) := by
      rintro ⟨_, _, hne⟩
      exact hne hsame
    unfold applyOrQueue
    rw [if_neg hc, if_neg (not_not_intro hsame), ensureSys_eq_self hEns]

/-- Witness for C3: an enterprise proposal `rps 15 → 25` at confidence 0.9
has ratio `5/3`, inside `(5/9, 9/5)`, and is auto-applied. -/
theorem claim_C3_resolve_apply_or_queue_witness :
    (applyOrQueue .ent "a" 0 7 .up 25 75 (9/10) "r" entFullSys).1 = .applied ∧
    applyOrQueue .ent "a" 0 7 .same 25 75 (9/10) "r" entFullSys =
      (.noChange, entFullSys) := by
  have ho : aoqOldRps .ent "a" 0 entFullSys = 15 := by
    norm_num [aoqOldRps, ensureSys, updateKey, entFullSys, entFullKey,
      ensurePolicyAndBucket]
  constructor
  · exact ((claim_C3_resolve_apply_or_queue .ent "a" 0 7 .up 25 75 (9/10) "r"
      entFullSys rfl (by rw [ho]; norm_num)).1 (by simp)).mpr
      (by rw [ho]; norm_num [DECISION_MIN_CONF, LARGE_CHANGE_FACTOR])
  · exact (claim_C3_resolve_apply_or_queue .ent "a" 0 7 .same 25 75 (9/10) "r"
      entFullSys rfl (by rw [ho]; norm_num)).2.2.2 rfl

theorem approveDecision_notFound {n : ℕ} {now : ℚ} {s : SysState}
    (h : s.pending.find? (fun d => d.id == n) = none) :
    approveDecision n now s = (.notFound, s) := by
  unfold approveDecision
  rw [h]

theorem find?_filter_ne (l : List PendingDecision) (n : ℕ) :
    (l.filter (fun q => q.id != n)).find? (fun d => d.id == n) = none := by
  rw [List.find?_eq_none]
  intro d hd
  have hmem := (List.mem_filter.mp hd).2
  simp only [bne_iff_ne, ne_eq] at hmem
  simp only [beq_iff_eq]
  exact hmem

/-- C8: approving an id twice: the first call applies the decision, moves
it to history with the approval stamp, and removes it from the pending
set; the second call — like any call with an id not in the pending set —
reports not-found and leaves the state untouched. -/
theorem claim_C8_approve_twice (n : ℕ) (now nowLater : ℚ) (s : SysState) :
    (s.pending.find? (fun d => d.id == n) = none →
       approveDecision n now s = (.notFound, s)) ∧
    (∀ d, s.pending.find? (fun d => d.id == n) = some d →
       (approveDecision n now s).1 = .approved ∧
       ((approveDecision n now s).2.keys (d.tenant, d.endpoint)).policy =
         some { rps := max 1 d.new_rps, burst := max 5 d.new_burst } ∧
       (approveDecision n now s).2.history = s.history ++ [.approvedEntry d now] ∧
       (approveDecision n now s).2.pending = s.pending.filter (fun q => q.id != n) ∧
       approveDecision n nowLater ((approveDecision n now s).2) =
         (.notFound, (approveDecision n now s).2)) := by
  refine ⟨fun h => approveDecision_notFound h, ?_⟩
  intro d hd
  have heq : approveDecision n now s =
      (.approved,
        { applyPolicySys d.tenant d.endpoint now d.new_rps d.new_burst s with
          history := (applyPolicySys d.tenant d.endpoint now d.new_rps d.new_burst s).history
            ++ [.approvedEntry d now]
          pending := (applyPolicySys d.tenant d.endpoint now d.new_rps
            d.new_burst s).pending.filter (fun q => q.id != n) }) := by
    unfold approveDecision
    rw [hd]
  rw [heq]
  refine ⟨rfl, ?_, rfl, rfl, ?_⟩
  · simp [applyPolicySys, updateKey, applyPolicy]
  · apply approveDecision_notFound
    exact find?_filter_ne s.pending n

/-- Witness for C8 at a concrete queue with one pending decision (id 5):
the first approval succeeds, the second reports not-found with no state
change. -/
theorem claim_C8_approve_twice_witness :
    (approveDecision 5 1
      { keys := fun _ => entFullKey
        pending := [{ id := 5, tenant := .ent, endpoint := "a", action := .up
                      new_rps := 45, new_burst := 135, confidence := 1, created := 0
                      reason := "d", old_rps := 15, scaling_factor := 3 }]
        history := [] }).1 = .approved ∧
    approveDecision 5 2 ((approveDecision 5 1
      { keys := fun _ => entFullKey
        pending := [{ id := 5, tenant := .ent, endpoint := "a", action := .up
                      new_rps := 45, new_burst := 135, confidence := 1, created := 0
                      reason := "d", old_rps := 15, scaling_factor := 3 }]
        history := [] }).2) =
      (.notFound, (approveDecision 5 1
      { keys := fun _ => entFullKey
        pending := [{ id := 5, tenant := .ent, endpoint := "a", action := .up
                      new_rps := 45, new_burst := 135, confidence := 1, created := 0
                      reason := "d", old_rps := 15, scaling_factor := 3 }]
        history := [] }).2) := by
  have h := (claim_C8_approve_twice 5 1 2
    { keys := fun _ => entFullKey
      pending := [{ id := 5, tenant := .ent, endpoint := "a", action := .up
                    new_rps := 45, new_burst := 135, confidence := 1, created := 0
                    reason := "d", old_rps := 15, scaling_factor := 3 }]
      history := [] }).2
    { id := 5, tenant := .ent, endpoint := "a", action := .up
      new_rps := 45, new_burst := 135, confidence := 1, created := 0
      reason := "d", old_rps := 15, scaling_factor := 3 } rfl
  exact ⟨h.1, h.2.2.2.2⟩

theorem analyze_prob_le_100 (t : Tenant) (now rps : ℚ) (hist : List SurgeSample) :
    (analyzeSurgePatterns t now rps hist).surge_probability ≤ 100 := by
  unfold analyzeSurgePatterns
  dsimp only
  split
  · norm_num
  · unfold surgeProbOfTrend
    exact min_le_left _ _

theorem preemptiveSurgeScaling_some {t : Tenant} {pol : Policy} {prob trend : ℚ}
    {prop : SurgeProposal}
    (h : preemptiveSurgeScaling t pol prob trend = some prop) :
    25 ≤ prob ∧ prop.confidence = 22/25 + prob / 500 := by
  unfold preemptiveSurgeScaling at h
  by_cases hp : prob < 25
  · rw [if_pos hp] at h
    simp at h
  · rw [if_neg hp] at h
    simp only [Option.some.injEq] at h
    exact ⟨le_of_not_lt hp, by rw [← h]⟩

/-- C6 (amended): a pending entry carries exactly the confidence of the
proposal that created it; validated oracle decisions have confidence in
`[0.5, 1]`, but preemptive surge proposals carry
`0.88 + prob/500 ∈ [0.93, 1.08]`, which exceeds 1 once the surge
probability passes 60 — so queue confidences lie in `[0.5, 1.08]`, not
`[0, 1]`. -/
theorem claim_C6_pending_confidence_amended :
    (∀ (raw : RawDecision) (curRps : ℚ) (curBurst : ℤ) (d : AIDecision),
       validateAIDecision raw curRps curBurst = some d →
       1/2 ≤ d.confidence ∧ d.confidence ≤ 1) ∧
    (∀ (t tKey : Tenant) (now rps : ℚ) (hist : List SurgeSample)
       (pol : Policy) (prop : SurgeProposal),
       preemptiveSurgeScaling tKey pol
         (analyzeSurgePatterns t now rps hist).surge_probability
         (analyzeSurgePatterns t now rps hist).trend = some prop →
       1/2 ≤ prop.confidence ∧ prop.confidence ≤ 27/25) ∧
    (∀ (t : Tenant) (e : EndpointName) (now : ℚ) (fresh : ℕ) (act : Action)
       (nrps : ℚ) (nburst : ℤ) (conf : ℚ) (reason : String) (s : SysState)
       (d : PendingDecision),
       d ∈ ((applyOrQueue t e now fresh act nrps nburst conf reason s).2).pending →
       d ∈ s.pending ∨ d.confidence = conf) := by
  refine ⟨?_, ?_, ?_⟩
  · intro raw curRps curBurst d hd
    have h := (validateAIDecision_spec raw curRps curBurst).2.2.2 d hd
    exact ⟨h.2.1, h.2.2.1⟩
  · intro t tKey now rps hist pol prop h
    obtain ⟨h25, hconf⟩ := preemptiveSurgeScaling_some h
    have h100 := analyze_prob_le_100 t now rps hist
    rw [hconf]
    constructor <;> linarith
  · intro t e now fresh act nrps nburst conf reason s d hd
    unfold applyOrQueue at hd
    by_cases hc1 : DECISION_MIN_CONF ≤ conf ∧
        isLargeChange (aoqOldRps t e now s) nrps = false ∧ act ≠ .same
    · rw [if_pos hc1] at hd
      exact Or.inl hd
    · rw [if_neg hc1] at hd
      by_cases hc2 : act ≠ .same
      · rw [if_pos hc2] at hd
        rcases List.mem_append.mp hd with h | h
        · exact Or.inl h
        · right
          rw [List.mem_singleton] at h
          subst h
          rfl
      · rw [if_neg hc2] at hd
        exact Or.inl hd

/-- Witness for C6 (amended): a two-sample enterprise history jumping to
60 RPS yields surge probability 100 and a proposal with confidence
`27/25`, inside the amended bound `[1/2, 27/25]`. -/
theorem claim_C6_pending_confidence_amended_witness :
    (1:ℚ)/2 ≤ (27:ℚ)/25 ∧ (27:ℚ)/25 ≤ 27/25 := by
  have h2 : ¬ (pruneSurgeHistory 1
      ([{ timestamp := 0, rps := 0 }] ++ [{ timestamp := 1, rps := 60 }])).length < 2 := by
    norm_num [pruneSurgeHistory]
  have hlong := analyze_prob_long .ent 1 60 [{ timestamp := 0, rps := 0 }] h2
  have htr : (analyzeSurgePatterns .ent 1 60 [{ timestamp := 0, rps := 0 }]).trend = 30 := by
    rw [hlong.2]
    norm_num [pruneSurgeHistory, surgeTrend]
  have hprob : (analyzeSurgePatterns .ent 1 60
      [{ timestamp := 0, rps := 0 }]).surge_probability = 100 := by
    rw [hlong.1, htr]
    norm_num [surgeProbOfTrend, surgeBase, businessPriority]
  have hsome : preemptiveSurgeScaling .ent { rps := 15, burst := 40 }
      (analyzeSurgePatterns .ent 1 60 [{ timestamp := 0, rps := 0 }]).surge_probability
      (analyzeSurgePatterns .ent 1 60 [{ timestamp := 0, rps := 0 }]).trend =
      some { new_rps := 120, new_burst := 320, scaling_factor := 8
             confidence := 27/25, actionType := "ddos_protection" } := by
    rw [hprob, htr]
    norm_num [preemptiveSurgeScaling, surgeScalingFactor, surgeActionType, pyInt,
      Rat.floor_def']
  exact claim_C6_pending_confidence_amended.2.1 .ent .ent 1 60
    [{ timestamp := 0, rps := 0 }] { rps := 15, burst := 40 }
    { new_rps := 120, new_burst := 320, scaling_factor := 8
      confidence := 27/25, actionType := "ddos_protection" } hsome

/-- C6 as stated is false on a concrete heuristic cycle: an enterprise key
surging from 0 to 60 RPS gets surge probability 100, the preemptive
proposal carries confidence `0.88 + 100/500 = 1.08`, and — the 8× change
being large — it lands in the governance queue, so a pending decision
holds confidence `27/25 > 1`. -/
theorem claim_C6_counterexample :
    ((surgeCycleStep .ent "a" 1 0 60 [{ timestamp := 0, rps := 0 }] entFullSys).map
      (fun r => r.2.pending.map PendingDecision.confidence)) = some [27/25] ∧
    ¬ ((27:ℚ)/25 ≤ 1) := by
  have h2 : ¬ (pruneSurgeHistory 1
      ([{ timestamp := 0, rps := 0 }] ++ [{ timestamp := 1, rps := 60 }])).length < 2 := by
    norm_num [pruneSurgeHistory]
  have hlong := analyze_prob_long .ent 1 60 [{ timestamp := 0, rps := 0 }] h2
  have htr : (analyzeSurgePatterns .ent 1 60 [{ timestamp := 0, rps := 0 }]).trend = 30 := by
    rw [hlong.2]
    norm_num [pruneSurgeHistory, surgeTrend]
  have hprob : (analyzeSurgePatterns .ent 1 60
      [{ timestamp := 0, rps := 0 }]).surge_probability = 100 := by
    rw [hlong.1, htr]
    norm_num [surgeProbOfTrend, surgeBase, businessPriority]
  have hsome : preemptiveSurgeScaling .ent { rps := 15, burst := 40 }
      (analyzeSurgePatterns .ent 1 60 [{ timestamp := 0, rps := 0 }]).surge_probability
      (analyzeSurgePatterns .ent 1 60 [{ timestamp := 0, rps := 0 }]).trend =
      some { new_rps := 120, new_burst := 320, scaling_factor := 8
             confidence := 27/25, actionType := "ddos_protection" } := by
    rw [hprob, htr]
    norm_num [preemptiveSurgeScaling, surgeScalingFactor, surgeActionType, pyInt,
      Rat.floor_def']
  have hstep : surgeCycleStep .ent "a" 1 0 60 [{ timestamp := 0, rps := 0 }] entFullSys =
      some (applyOrQueue .ent "a" 1 0 .up 120 320 (27/25) "ddos_protection" entFullSys) := by
    unfold surgeCycleStep
    dsimp only
    rw [show (entFullSys.keys (Tenant.ent, "a")).policy.getD { rps := 10, burst := 30 } =
      { rps := 15, burst := 40 } from rfl, hsome]
  have ho : aoqOldRps .ent "a" 1 entFullSys = 15 := by
    norm_num [aoqOldRps, ensureSys, updateKey, entFullSys, entFullKey,
      ensurePolicyAndBucket]
  have hlarge : isLargeChange (aoqOldRps .ent "a" 1 entFullSys) 120 = true := by
    rw [ho]
    norm_num [isLargeChange, LARGE_CHANGE_FACTOR]
  have hpend : (applyOrQueue .ent "a" 1 0 .up 120 320 (27/25) "ddos_protection"
      entFullSys).2.pending.map PendingDecision.confidence = [27/25] := by
    unfold applyOrQueue
    rw [if_neg (by rw [hlarge]; simp), if_pos (by simp)]
    rfl
  refine ⟨?_, by norm_num⟩
  rw [hstep, Option.map_some']
  exact congrArg some hpend

end RateLimiter
